import Mathlib

/-
A verification development for the markmath repository: a shallow embedding of
the formula-language core (expression compilation, precedence resolution,
evaluation with unit algebra, unit-collection persistence, template expansion,
and the markdown block driver), together with theorems settling the frozen
claims about it.

Modelling conventions:
* Rust `String`/`&str` text is modelled as `List Char` (abbreviated `Str`).
* Rust `f64` values are modelled as exact rationals (`Rat`); all numeric
  computations appearing in the theorems below stay within the integer range
  where `f64` arithmetic is exact.
* A Rust panic (`expect`/`unwrap`/`panic!`) is modelled as `Option.none`;
  a Rust `Result` is modelled as `Except`.
* Rust `HashMap`s are modelled as association lists; lookups observe the
  most recent binding for a key.
-/

namespace Markmath

/-- Rust strings are modelled as lists of characters. -/
abbrev Str := List Char

/-- `DefinedUnit` from src/language/expression.rs: an unevaluated expression
over unit names. -/
inductive DefinedUnit where
  | Defined (name : Str)
  | Implicit (operator : Str) (associative : Bool) (left right : DefinedUnit)
deriving DecidableEq

/-- `Unit` from src/language/expression.rs: the symbolic unit attached to a
numeric value. -/
inductive Unit where
  | Defined (d : DefinedUnit)
  | Literal (name : Str)
  | none
deriving DecidableEq

/-- `ExpressionError` from src/language/expression.rs. -/
inductive ExpressionError where
  | InvalidFunction (name : Str) (param_c : Nat)
  | InvalidNumber (val : Str)
  | InvalidOperator (op : Str)
deriving DecidableEq

/-- `EvaluationError` from src/language/expression.rs, with the concrete
`LibraryError = String` used by `FormattableLibraryProvider`. -/
inductive EvaluationError where
  | LibraryError (err : Str)
  | MissingVariable (name : Str)
deriving DecidableEq

/-- `TokenTree` from src/parse.rs (the syntax tree produced by the tree
builder, before math-library validation). -/
inductive TokenTree where
  | VariableAssign (name : Str) (child : TokenTree)
  | OperatorSequence (operators : List Str) (children : List TokenTree)
  | DefinedUnit (name : Str) (child : TokenTree)
  | LiteralUnit (name : Str) (child : TokenTree)
  | FunctionCall (name : Str) (args : List TokenTree)
  | VariableRef (name : Str) (exp : Bool)
  | NumberLiteral (val : Str)
  | Negate (child : TokenTree)

/-- `Expression` from src/language/expression.rs (post-validation tree, with
`OperatorRun` replaced by binary `Operator` nodes). -/
inductive Expression where
  | VariableAssign (name : Str) (child : Expression)
  | Operator (operator : Str) (left right : Expression)
  | FunctionCall (function : Str) (args : List Expression)
  | DefinedUnit (name : Option Str) (child : Expression)
  | LiteralUnit (name : Str) (child : Expression)
  | VariableRef (name : Str)
  | NumberLiteral (val : Rat)
  | Negate (child : Expression)

/-- One registered operator of a math library: the data reachable through the
`FormattableOperator` trait object stored in `FormattableLibraryProvider`
(src/language/format.rs, src/language/format/library_provider.rs). -/
structure OpSpec where
  symbol : Str
  precedence : Nat
  associative : Bool
  shouldParenthesizeLeft : Bool
  shouldParenthesizeRight : Bool
  eval : Rat → Rat → Except Str Rat

/-- One registered function of a math library (`FormattableFunction` with the
`BasicFunction` fixed-arity `supports_arg_count`). -/
structure FnSpec where
  name : Str
  argCount : Nat
  eval : List Rat → Except Str Rat

/-- `FormattableLibraryProvider`: the registries of operators and functions,
keyed by symbol/name. -/
structure LibraryProvider where
  operators : List OpSpec
  functions : List FnSpec

/-- `self.operators.get(symbol)`. -/
def LibraryProvider.findOp (p : LibraryProvider) (symbol : Str) : Option OpSpec :=
  p.operators.find? (fun o => o.symbol == symbol)

/-- `self.functions.get(name)`. -/
def LibraryProvider.findFn (p : LibraryProvider) (name : Str) : Option FnSpec :=
  p.functions.find? (fun f => f.name == name)

/-- `LibraryProvider::operator_exists` as implemented by
`FormattableLibraryProvider`. -/
def LibraryProvider.operator_exists (p : LibraryProvider) (symbol : Str) : Bool :=
  (p.findOp symbol).isSome

/-- `LibraryProvider::operator_precedence` as implemented by
`FormattableLibraryProvider`; `none` models the `expect` panic on an
unregistered symbol. -/
def LibraryProvider.operator_precedence (p : LibraryProvider) (symbol : Str) : Option Nat :=
  (p.findOp symbol).map OpSpec.precedence

/-- `LibraryProvider::operator_associative` as implemented by
`FormattableLibraryProvider`; `none` models the `expect` panic. -/
def LibraryProvider.operator_associative (p : LibraryProvider) (symbol : Str) : Option Bool :=
  (p.findOp symbol).map OpSpec.associative

/-- `LibraryProvider::function_exists` as implemented by
`FormattableLibraryProvider` (with `BasicFunction`'s exact-arity
`supports_arg_count`). -/
def LibraryProvider.function_exists (p : LibraryProvider) (name : Str) (param_c : Nat) : Bool :=
  match p.findFn name with
  | some f => f.argCount == param_c
  | Option.none => false

/-- `TransformNode` from src/language/expression.rs: the scratch tree used
while re-associating a flat operator run. -/
inductive TransformNode where
  | Op (left right : TransformNode) (op : Str)
  | Expr (e : Expression)

/-- `TransformNode::transform`: resolve the left spine bottom-up, rotating
when the current operator binds tighter than the (already resolved) left
child's operator.  `none` models the panic inside `operator_precedence` for an
unregistered symbol. -/
def TransformNode.transform (p : LibraryProvider) : TransformNode → Option TransformNode
  | .Expr e => some (.Expr e)
  | .Op left right op =>
    match left.transform p with
    | Option.none => Option.none
    | some (.Expr e) => some (.Op (.Expr e) right op)
    | some (.Op l_left l_right l_op) =>
      match p.operator_precedence op, p.operator_precedence l_op with
      | some po, some plo =>
        if po > plo then
          some (.Op l_left (.Op l_right right op) l_op)
        else
          some (.Op (.Op l_left l_right l_op) right op)
      | _, _ => Option.none

/-- `TransformNode::compile`. -/
def TransformNode.compile : TransformNode → Expression
  | .Op left right op => .Operator op left.compile right.compile
  | .Expr e => e

/-- The `while let` loop of `transform_operators` building the left-deep
chain; stops as soon as either iterator is exhausted. -/
def buildChain : TransformNode → List Expression → List Str → TransformNode
  | l, e :: es, o :: os => buildChain (.Op l (.Expr e) o) es os
  | l, _, _ => l

/-- `transform_operators` from src/language/expression.rs; `none` models the
`expect` panics for fewer than two operands or no operator, and the panic
propagated out of `TransformNode::transform`. -/
def transform_operators (p : LibraryProvider) (operators : List Str)
    (expressions : List Expression) : Option Expression :=
  match expressions, operators with
  | e1 :: e2 :: es, o1 :: os =>
    match (buildChain (.Op (.Expr e1) (.Expr e2) o1) es os).transform p with
    | some l => some l.compile
    | Option.none => Option.none
  | _, _ => Option.none

/-- Digit run to number. -/
def digitsToNat (l : List Char) : Nat :=
  l.foldl (fun acc c => acc * 10 + (c.toNat - '0'.toNat)) 0

/-- Model of Rust `str::parse::<f64>` restricted to plain decimal literals
(optional leading minus, digits, optional fraction part).  Exponent forms,
`inf`/`NaN` and rounding of long literals lie outside the rational model; all
literals appearing below are exactly representable. -/
def parseNumber (s : Str) : Option Rat :=
  let core := fun (t : Str) =>
    let intPart := t.takeWhile (fun c => c ≠ '.')
    let rest := t.dropWhile (fun c => c ≠ '.')
    match rest with
    | [] =>
      if intPart ≠ [] ∧ intPart.all Char.isDigit then
        some ((digitsToNat intPart : Rat))
      else
        Option.none
    | _ :: frac =>
      if (intPart ≠ [] ∨ frac ≠ []) ∧ intPart.all Char.isDigit ∧
          frac.all Char.isDigit ∧ frac.all (fun c => c ≠ '.') then
        some ((digitsToNat intPart : Rat) + (digitsToNat frac : Rat) / ((10 : Rat) ^ frac.length))
      else
        Option.none
  match s with
  | '-' :: rest => (core rest).map (fun r => -r)
  | _ => core s

/-- The sentinel unit name that `Expression::new` maps to `None`. -/
def noneName : Str := "None".data

mutual

/-- `Expression::new` from src/language/expression.rs: bind a `TokenTree`
against a library provider.  The outer `Option` models panics (reachable
through `transform_operators`), the inner `Except` the returned `Result`.
Note that the `OperatorSequence` arm performs no `operator_exists` check. -/
def Expression.new (p : LibraryProvider) : TokenTree → Option (Except ExpressionError Expression)
  | .VariableAssign name child =>
    match Expression.new p child with
    | Option.none => Option.none
    | some (.error e) => some (.error e)
    | some (.ok c) => some (.ok (.VariableAssign name c))
  | .OperatorSequence operators children =>
    match Expression.newList p children with
    | Option.none => Option.none
    | some (.error e) => some (.error e)
    | some (.ok cs) =>
      match transform_operators p operators cs with
      | some e => some (.ok e)
      | Option.none => Option.none
  | .DefinedUnit name child =>
    match Expression.new p child with
    | Option.none => Option.none
    | some (.error e) => some (.error e)
    | some (.ok c) =>
      some (.ok (.DefinedUnit (if name = noneName then Option.none else some name) c))
  | .LiteralUnit name child =>
    match Expression.new p child with
    | Option.none => Option.none
    | some (.error e) => some (.error e)
    | some (.ok c) => some (.ok (.LiteralUnit name c))
  | .FunctionCall name args =>
    if p.function_exists name args.length then
      match Expression.newList p args with
      | Option.none => Option.none
      | some (.error e) => some (.error e)
      | some (.ok cs) => some (.ok (.FunctionCall name cs))
    else
      some (.error (.InvalidFunction name args.length))
  | .VariableRef name _ => some (.ok (.VariableRef name))
  | .NumberLiteral val =>
    match parseNumber val with
    | some v => some (.ok (.NumberLiteral v))
    | Option.none => some (.error (.InvalidNumber val))
  | .Negate child =>
    match Expression.new p child with
    | Option.none => Option.none
    | some (.error e) => some (.error e)
    | some (.ok c) => some (.ok (.Negate c))

/-- The `collect::<Result<_, _>>()` over children: stops at the first error. -/
def Expression.newList (p : LibraryProvider) : List TokenTree → Option (Except ExpressionError (List Expression))
  | [] => some (.ok [])
  | t :: ts =>
    match Expression.new p t with
    | Option.none => Option.none
    | some (.error e) => some (.error e)
    | some (.ok c) =>
      match Expression.newList p ts with
      | Option.none => Option.none
      | some (.error e) => some (.error e)
      | some (.ok cs) => some (.ok (c :: cs))

end

/-- `EvaluationContext` from src/language/expression.rs: the variable map.
The `HashMap` is modelled as an association list where the most recent
binding for a name shadows older ones. -/
abbrev EvaluationContext := List (Str × (Rat × Unit))

/-- `EvaluationContext::get_variable`. -/
def EvaluationContext.get_variable (ctx : EvaluationContext) (name : Str) : Option (Rat × Unit) :=
  match ctx.find? (fun kv => kv.1 == name) with
  | some kv => some kv.2
  | Option.none => Option.none

/-- `EvaluationContext::store_variable` (`HashMap::insert`, overwriting). -/
def EvaluationContext.store_variable (ctx : EvaluationContext) (name : Str)
    (value : Rat × Unit) : EvaluationContext :=
  (name, value) :: ctx

mutual

/-- `Expression::eval` from src/language/expression.rs.  The mutable context
is threaded explicitly and returned alongside the `Result` (also on error,
since `&mut` mutations made before the error persist).  `none` models the
panics inside `eval_operator`/`eval_function` for unregistered symbols. -/
def Expression.eval (p : LibraryProvider) : Expression → EvaluationContext →
    Option (EvaluationContext × Except EvaluationError (Rat × Unit))
  | .VariableAssign name child, ctx =>
    match Expression.eval p child ctx with
    | Option.none => Option.none
    | some (ctx1, .error e) => some (ctx1, .error e)
    | some (ctx1, .ok res) => some (ctx1.store_variable name res, .ok res)
  | .Operator operator left right, ctx =>
    match Expression.eval p left ctx with
    | Option.none => Option.none
    | some (ctx1, .error e) => some (ctx1, .error e)
    | some (ctx1, .ok (l_v, l_u)) =>
      match Expression.eval p right ctx1 with
      | Option.none => Option.none
      | some (ctx2, .error e) => some (ctx2, .error e)
      | some (ctx2, .ok (r_v, r_u)) =>
        match p.findOp operator with
        | Option.none => Option.none
        | some spec =>
          match spec.eval l_v r_v with
          | .error e => some (ctx2, .error (.LibraryError e))
          | .ok res_v =>
            let res_u : Unit :=
              match l_u with
              | .Defined l_d =>
                match r_u with
                | .Defined r_d => .Defined (.Implicit operator spec.associative l_d r_d)
                | .Literal _ => .Defined l_d
                | .none => .Defined l_d
              | .Literal l_s =>
                match r_u with
                | .Defined r_s => .Defined r_s
                | .Literal _ => .none
                | .none => .Literal l_s
              | .none => r_u
            some (ctx2, .ok (res_v, res_u))
  | .FunctionCall function args, ctx =>
    match Expression.evalArgs p args ctx with
    | Option.none => Option.none
    | some (ctx1, .error e) => some (ctx1, .error e)
    | some (ctx1, .ok vals) =>
      match p.findFn function with
      | Option.none => Option.none
      | some f =>
        match f.eval vals with
        | .error e => some (ctx1, .error (.LibraryError e))
        | .ok r => some (ctx1, .ok (r, .none))
  | .VariableRef name, ctx =>
    match ctx.get_variable name with
    | some r => some (ctx, .ok r)
    | Option.none => some (ctx, .error (.MissingVariable name))
  | .DefinedUnit name child, ctx =>
    match Expression.eval p child ctx with
    | Option.none => Option.none
    | some (ctx1, .error e) => some (ctx1, .error e)
    | some (ctx1, .ok (r, _)) =>
      some (ctx1, .ok (r, match name with
        | some n => .Defined (.Defined n)
        | Option.none => .none))
  | .LiteralUnit name child, ctx =>
    match Expression.eval p child ctx with
    | Option.none => Option.none
    | some (ctx1, .error e) => some (ctx1, .error e)
    | some (ctx1, .ok (r, _)) => some (ctx1, .ok (r, .Literal name))
  | .NumberLiteral num, ctx => some (ctx, .ok (num, .none))
  | .Negate child, ctx =>
    match Expression.eval p child ctx with
    | Option.none => Option.none
    | some (ctx1, .error e) => some (ctx1, .error e)
    | some (ctx1, .ok (r, u)) => some (ctx1, .ok (-r, u))

/-- Argument evaluation of the `FunctionCall` arm: sequential, stopping at the
first error, units discarded. -/
def Expression.evalArgs (p : LibraryProvider) : List Expression → EvaluationContext →
    Option (EvaluationContext × Except EvaluationError (List Rat))
  | [], ctx => some (ctx, .ok [])
  | e :: es, ctx =>
    match Expression.eval p e ctx with
    | Option.none => Option.none
    | some (ctx1, .error err) => some (ctx1, .error err)
    | some (ctx1, .ok (v, _)) =>
      match Expression.evalArgs p es ctx1 with
      | Option.none => Option.none
      | some (ctx2, .error err) => some (ctx2, .error err)
      | some (ctx2, .ok vs) => some (ctx2, .ok (v :: vs))

end

/-- The `div` helper of src/language/latex_impl/operators.rs. -/
def operatorDiv (left right : Rat) : Except Str Rat :=
  if right = 0 then .error ("division by zero".data) else .ok (left / right)

/-- `f64::powf` modelled on rationals: exact for integer exponents; fractional
exponents lie outside the rational model (no claim below evaluates `**`). -/
def powf (left right : Rat) : Rat :=
  if right.den = 1 then left ^ right.num else 0

/-- `Add` from src/language/latex_impl/operators.rs. -/
def Add : OpSpec where
  symbol := "+".data
  precedence := 0
  associative := true
  shouldParenthesizeLeft := true
  shouldParenthesizeRight := true
  eval := fun left right => .ok (left + right)

/-- `Sub` from src/language/latex_impl/operators.rs. -/
def Sub : OpSpec where
  symbol := "-".data
  precedence := 0
  associative := false
  shouldParenthesizeLeft := true
  shouldParenthesizeRight := true
  eval := fun left right => .ok (left - right)

/-- `Mul` from src/language/latex_impl/operators.rs. -/
def Mul : OpSpec where
  symbol := "*".data
  precedence := 1
  associative := true
  shouldParenthesizeLeft := true
  shouldParenthesizeRight := true
  eval := fun left right => .ok (left * right)

/-- `Div` from src/language/latex_impl/operators.rs. -/
def Div : OpSpec where
  symbol := "/".data
  precedence := 1
  associative := false
  shouldParenthesizeLeft := false
  shouldParenthesizeRight := false
  eval := operatorDiv

/-- `DivSymbol` from src/language/latex_impl/operators.rs. -/
def DivSymbol : OpSpec where
  symbol := "//".data
  precedence := 1
  associative := false
  shouldParenthesizeLeft := true
  shouldParenthesizeRight := true
  eval := operatorDiv

/-- `Pow` from src/language/latex_impl/operators.rs. -/
def Pow : OpSpec where
  symbol := "**".data
  precedence := 2
  associative := false
  shouldParenthesizeLeft := true
  shouldParenthesizeRight := false
  eval := fun left right => .ok (powf left right)

/-- The operator registry built by `operators()` in
src/language/latex_impl/operators.rs.  The function registry is left empty:
no claim below involves a function call. -/
def latexLib : LibraryProvider where
  operators := [Add, Sub, Mul, Div, DivSymbol, Pow]
  functions := []

/-- A variant of `Sub` whose associativity flag is raised, to witness that
operator-run grouping does not consult that flag. -/
def SubAssoc : OpSpec where
  symbol := "-".data
  precedence := 0
  associative := true
  shouldParenthesizeLeft := true
  shouldParenthesizeRight := true
  eval := fun left right => .ok (left - right)

/-- `latexLib` with the associative variant of `-`. -/
def subAssocLib : LibraryProvider where
  operators := [Add, SubAssoc, Mul, Div, DivSymbol, Pow]
  functions := []

/-- The unit-combination table of spec §4.4, stated as a standalone function
of the two operand unit kinds (the reference the evaluator is compared
against). -/
def unitCombinationTable (operator : Str) (associative : Bool) : Unit → Unit → Unit
  | .Defined l, .Defined r => .Defined (.Implicit operator associative l r)
  | .Defined l, .Literal _ => .Defined l
  | .Defined l, .none => .Defined l
  | .Literal _, .Defined r => .Defined r
  | .Literal _, .Literal _ => .none
  | .Literal l, .none => .Literal l
  | .none, r => r

/-- `UnitCollection` from src/unit_lib.rs; both `HashMap`s are modelled as
association lists (entry order is irrelevant to lookups). -/
structure UnitCollection where
  defined_units : List (Str × Str)
  operator_results : List ((Str × Str × Str) × Str)
deriving DecidableEq

/-- `UnitCollection::get_defined_unit`. -/
def UnitCollection.get_defined_unit (c : UnitCollection) (name : Str) : Option Str :=
  match c.defined_units.find? (fun kv => kv.1 == name) with
  | some kv => some kv.2
  | Option.none => Option.none

/-- `self.operator_results.get(&(operator, a, b))`: the result stored under
one key, with no associativity fallback. -/
def UnitCollection.storedResult (c : UnitCollection) (operator a b : Str) : Option Str :=
  match c.operator_results.find? (fun kv => kv.1 == (operator, a, b)) with
  | some kv => some kv.2
  | Option.none => Option.none

/-- `UnitCollection::get_operator_result`: the direct key first, the
operand-swapped key only for associative operators. -/
def UnitCollection.get_operator_result (c : UnitCollection) (operator a b : Str)
    (associative : Bool) : Option Str :=
  match c.storedResult operator a b with
  | some r => some r
  | Option.none =>
    if !associative then Option.none
    else c.storedResult operator b a

/-- `UnitCollection::add_defined_unit` (`HashMap::insert`; the most recent
binding shadows older ones). -/
def UnitCollection.add_defined_unit (c : UnitCollection) (name unit : Str) : UnitCollection :=
  { defined_units := (name, unit) :: c.defined_units,
    operator_results := c.operator_results }

/-- `UnitCollection::add_operator_result`. -/
def UnitCollection.add_operator_result (c : UnitCollection) (operator a b res : Str) : UnitCollection :=
  { defined_units := c.defined_units,
    operator_results := ((operator, a, b), res) :: c.operator_results }

/-- The state threaded through `CLIUnitLib::resolve_unit`
(src/unit_lib.rs): the collection, the `missing_names` set (a duplicate-free
list), and a log of the prompts issued to the interactive backend, so that
"resolves without prompting" is observable. -/
structure ResolveState where
  collection : UnitCollection
  missing : List Str
  prompts : List Str
deriving DecidableEq

/-- `HashSet::insert` on the missing-name set. -/
def insertMissing (missing : List Str) (name : Str) : List Str :=
  if name ∈ missing then missing else missing ++ [name]

/-- `CLIUnitLib::resolve_unit`: resolve a unit tree bottom-up against the
collection; `prompt` models the interactive backend (the answer returned for
a given message), and every issued combination prompt is logged. -/
def resolve_unit (prompt : Str → Str) : DefinedUnit → ResolveState → (Str × ResolveState)
  | .Defined name, st =>
    if (st.collection.get_defined_unit name).isSome then (name, st)
    else (name, { st with missing := insertMissing st.missing name })
  | .Implicit operator associative left right, st =>
    let lst := resolve_unit prompt left st
    let rst := resolve_unit prompt right lst.2
    let st2 := rst.2
    match st2.collection.get_operator_result operator lst.1 rst.1 associative with
    | some res => (res, st2)
    | Option.none =>
      let msg := ("Enter result of ".data) ++ lst.1 ++ [' '] ++ operator ++ [' '] ++ rst.1 ++ (": ".data)
      let res := prompt msg
      let coll := st2.collection.add_operator_result operator lst.1 rst.1 res
      let missing :=
        if (coll.get_defined_unit res).isSome then st2.missing
        else insertMissing st2.missing res
      (res, { collection := coll, missing := missing, prompts := st2.prompts ++ [msg] })

/-- `str::trim`: drop leading and trailing whitespace. -/
def trimChars (s : Str) : Str :=
  ((s.dropWhile Char.isWhitespace).reverse.dropWhile Char.isWhitespace).reverse

/-- Split a string at every occurrence of a separator character
(`str::split`). -/
def splitOnChar (sep : Char) : Str → List Str
  | [] => [[]]
  | c :: cs =>
    match splitOnChar sep cs with
    | [] => [[]]
    | h :: t => if c = sep then [] :: h :: t else (c :: h) :: t

/-- `Vec::join` with a single-character separator. -/
def intercalateChar (sep : Char) : List Str → Str
  | [] => []
  | [x] => x
  | x :: y :: xs => x ++ sep :: intercalateChar sep (y :: xs)

/-- `str::lines`: split on newline, dropping the final empty piece produced
by a terminating newline; the empty string yields no lines. -/
def rustLines (s : Str) : List Str :=
  match s with
  | [] => []
  | _ =>
    let l := splitOnChar '\n' s
    if l.getLast? = some [] then l.dropLast else l

/-- The `{unitName};{label}` line of one defined-unit entry. -/
def definedLine (kv : Str × Str) : Str :=
  kv.1 ++ ';' :: kv.2

/-- The `{a};{op};{b};{r}` line of one operator-result entry (the key is
stored as `(op, a, b)`). -/
def operatorLine (kv : (Str × Str × Str) × Str) : Str :=
  kv.1.2.1 ++ ';' :: (kv.1.1 ++ ';' :: (kv.1.2.2 ++ ';' :: kv.2))

/-- `Display for UnitCollection` (src/unit_lib.rs): `unitName;label` lines, a
blank line, then `left;operator;right;result` lines. -/
def UnitCollection.toText (c : UnitCollection) : Str :=
  intercalateChar '\n' (c.defined_units.map definedLine) ++
    '\n' :: '\n' ::
    intercalateChar '\n' (c.operator_results.map operatorLine)

/-- The first parsing loop of `FromStr for UnitCollection`: defined-unit
lines up to the first blank (or the end); returns the entries together with
the unconsumed lines. -/
def parseDefinedLines : List Str → List (Str × Str) →
    Except Str (List (Str × Str) × List Str)
  | [], acc => .ok (acc, [])
  | line :: rest, acc =>
    let line := trimChars line
    if line = [] then .ok (acc, rest)
    else
      match splitOnChar ';' line with
      | [k, v] => parseDefinedLines rest (acc ++ [(k, v)])
      | _ => .error (("Invalid defined line: ".data) ++ line)

/-- The second parsing loop of `FromStr for UnitCollection`: operator-result
lines up to the next blank line (or the end). -/
def parseOperatorLines : List Str → List ((Str × Str × Str) × Str) →
    Except Str (List ((Str × Str × Str) × Str))
  | [], acc => .ok acc
  | line :: rest, acc =>
    let line := trimChars line
    if line = [] then .ok acc
    else
      match splitOnChar ';' line with
      | [a, op, b, r] => parseOperatorLines rest (acc ++ [((op, a, b), r)])
      | _ => .error (("Invalid operator line: ".data) ++ line)

/-- `FromStr for UnitCollection`. -/
def UnitCollection.fromText (s : Str) : Except Str UnitCollection :=
  match parseDefinedLines (rustLines s) [] with
  | .error e => .error e
  | .ok (du, rest) =>
    match parseOperatorLines rest [] with
    | .error e => .error e
    | .ok ops => .ok { defined_units := du, operator_results := ops }

/-- `num.parse::<usize>()`: a nonempty run of decimal digits.  (Rust
`char::is_numeric` also accepts non-ASCII numerics, which `parse` then
rejects; every template below is ASCII.) -/
def parseUsize (s : Str) : Option Nat :=
  if s ≠ [] ∧ s.all Char.isDigit then some (digitsToNat s) else Option.none

/-- The `push` closure of `fmt_expression`
(src/language/format/library_provider.rs): parse the accumulated placeholder
index and append the rendered operand text; `none` models the `unwrap` panic
on an unparsable index and the out-of-bounds indexing panic. -/
def fmtPush (rendered : List Str) (num out : Str) : Option Str :=
  match parseUsize num with
  | some n =>
    match rendered.get? n with
    | some r => some (out ++ r)
    | Option.none => Option.none
  | Option.none => Option.none

/-- The character loop of `fmt_expression`, followed by the unconditional
final `push`.  `rendered` abstracts `write_expression` on `args`: the text
the recursive renderer appends for each operand. -/
def fmtExpressionGo (rendered : List Str) : List Char → Bool → Str → Str → Option Str
  | [], _, num, out => fmtPush rendered num out
  | c :: cs, true, num, out =>
    if c.isDigit then fmtExpressionGo rendered cs true (num ++ [c]) out
    else
      match fmtPush rendered num out with
      | some out1 => fmtExpressionGo rendered cs false [] (out1 ++ [c])
      | Option.none => Option.none
  | c :: cs, false, num, out =>
    if c = '$' then fmtExpressionGo rendered cs true num out
    else fmtExpressionGo rendered cs false num (out ++ [c])

/-- `fmt_expression` from src/language/format/library_provider.rs. -/
def fmt_expression (fmt : Str) (rendered : List Str) : Option Str :=
  fmtExpressionGo rendered fmt false [] []

/-- `format_err` from src/markdown.rs: the visible inline error marker. -/
def format_err (error : Str) : Str :=
  ("<span style=\"color:red\">".data) ++ error ++ ("</span>".data)

/-- `Debug` formatting of `EvaluationError` (src/language/expression.rs); the
`LibraryError = String` case is Rust's `Debug` for strings, which surrounds
the text with quotes (escape sequences are not modelled; no message below
needs them). -/
def EvaluationError.debugFmt : EvaluationError → Str
  | .LibraryError err => '"' :: err ++ ['"']
  | .MissingVariable name => ("Variable '".data) ++ name ++ ("' not found".data)

/-- `ValueMode` from src/language/format.rs. -/
inductive ValueMode where
  | NumbersWithUnit
  | NumbersNoUnit
  | NamedLiteralUnit
  | NamedNoUnit
deriving DecidableEq

/-- The pre-flag loop of `handle_code_block` (src/markdown.rs): consume flag
characters up to the first whitespace, whose position becomes the body
offset (it stays 0 when no whitespace occurs).  All blocks considered are
ASCII, so Rust's byte offsets coincide with character offsets. -/
def parsePreflagsGo : List Char → Nat → Bool → Bool → Bool →
    Except Str (Bool × Bool × Bool × Nat)
  | [], _, render_vars, render_units, visible => .ok (render_vars, render_units, visible, 0)
  | c :: cs, j, render_vars, render_units, visible =>
    if c.isWhitespace then .ok (render_vars, render_units, visible, j)
    else if c = 'u' then parsePreflagsGo cs (j + 1) render_vars false visible
    else if c = 'v' then parsePreflagsGo cs (j + 1) true render_units visible
    else if c = 'i' then parsePreflagsGo cs (j + 1) render_vars render_units false
    else .error (format_err (("Invalid preflag: ".data) ++ [c]))

/-- The flag prefix of a code block. -/
def parsePreflags (block : Str) : Except Str (Bool × Bool × Bool × Nat) :=
  parsePreflagsGo block 0 false true true

/-- The per-line loop of `handle_code_block`: blank lines are skipped (but
still counted by the enumeration), and the first failing line stops the loop
with its 0-based index and error text. -/
def collectLines (parseLine : Str → Except Str Expression) :
    List Str → Nat → List Expression → (List Expression × Option (Nat × Str))
  | [], _, acc => (acc, Option.none)
  | l :: rest, i, acc =>
    if trimChars l = [] then collectLines parseLine rest (i + 1) acc
    else
      match parseLine l with
      | .ok e => collectLines parseLine rest (i + 1) (acc ++ [e])
      | .error s => (acc, some (i, s))

/-- `CalculationsBuilder::add_single_calculation` (src/language/format.rs),
restricted to its evaluation-context and calculation-count effects: the
generated formattable tree only feeds the renderer (treated as an external
capability), and generation neither mutates the evaluation context nor
returns an error.  The result carries the final context, the returned
`Result` (the new calculation's index on success), and the new count. -/
def add_single_calculation (p : LibraryProvider) (ctx : EvaluationContext)
    (e : Expression) (mode : ValueMode) (count : Nat) :
    Option (EvaluationContext × Except EvaluationError Nat × Nat) :=
  match mode with
  | .NumbersWithUnit | .NumbersNoUnit =>
    match Expression.eval p e ctx with
    | Option.none => Option.none
    | some (ctx1, .error err) => some (ctx1, .error err, count)
    | some (ctx1, .ok _) => some (ctx1, .ok count, count + 1)
  | .NamedLiteralUnit | .NamedNoUnit => some (ctx, .ok count, count + 1)

/-- The sequential evaluation inside `add_multi_calculation`: the first
evaluation error stops the traversal (later expressions are not evaluated). -/
def add_multi_evals (p : LibraryProvider) : List Expression → EvaluationContext →
    Option (EvaluationContext × Option EvaluationError)
  | [], ctx => some (ctx, Option.none)
  | e :: es, ctx =>
    match Expression.eval p e ctx with
    | Option.none => Option.none
    | some (ctx1, .error err) => some (ctx1, some err)
    | some (ctx1, .ok _) => add_multi_evals p es ctx1

/-- `CalculationsBuilder::add_multi_calculation`, restricted the same way as
`add_single_calculation` (it always evaluates, whichever mode the
`display_units` flag selects). -/
def add_multi_calculation (p : LibraryProvider) (ctx : EvaluationContext)
    (exps : List Expression) (count : Nat) :
    Option (EvaluationContext × Except EvaluationError Nat × Nat) :=
  match add_multi_evals p exps ctx with
  | Option.none => Option.none
  | some (ctx1, some err) => some (ctx1, .error err, count)
  | some (ctx1, Option.none) => some (ctx1, .ok count, count + 1)

/-- `handle_code_block` from src/markdown.rs.  `parseLine` stands for the
`exp` helper (tokenizer followed by `Expression::new`); only its per-line
`Result` is inspected here.  The result carries the final evaluation context,
the final calculation count and the block's `Result` (the calculation index
to splice in when visible, or the inline error marker). -/
def handle_code_block (parseLine : Str → Except Str Expression) (p : LibraryProvider)
    (block : Str) (ctx : EvaluationContext) (count : Nat) :
    Option (EvaluationContext × Nat × Except Str (Option Nat)) :=
  match parsePreflags block with
  | .error msg => some (ctx, count, .error msg)
  | .ok (render_vars, render_units, visible, i) =>
    let lines := rustLines (block.drop i)
    let val_mode :=
      match render_vars, render_units with
      | false, false => ValueMode.NumbersNoUnit
      | false, true => ValueMode.NumbersWithUnit
      | true, false => ValueMode.NamedNoUnit
      | true, true => ValueMode.NamedLiteralUnit
    match collectLines parseLine lines 0 [] with
    | (_, some (li, e)) =>
      some (ctx, count, .error (format_err (
        if lines.length = 1 then ("Error: ".data) ++ e
        else ("Error on line ".data) ++ (Nat.repr li).data ++ (": ".data) ++ e)))
    | (exps, Option.none) =>
      let res :=
        if lines.length = 1 then
          match exps.get? 0 with
          | Option.none => Option.none
          | some e0 => add_single_calculation p ctx e0 val_mode count
        else
          add_multi_calculation p ctx exps count
      match res with
      | Option.none => Option.none
      | some (ctx1, .error err, count1) =>
        some (ctx1, count1, .error (format_err err.debugFmt))
      | some (ctx1, .ok idx, count1) =>
        some (ctx1, count1, .ok (if visible then some idx else Option.none))

/-- `get_blocks` from src/markdown.rs: split on `^`, with `^^` escaping a
literal `^`. -/
def getBlocksGo : List Char → Str → List Str
  | [], cur => [cur]
  | '^' :: '^' :: rest, cur => getBlocksGo rest (cur ++ ['^'])
  | '^' :: rest, _cur => _cur :: getBlocksGo rest []
  | c :: rest, cur => getBlocksGo rest (cur ++ [c])

/-- `get_blocks`. -/
def get_blocks (source : Str) : List Str :=
  getBlocksGo source []

/-- The alternating text/code consumption loop of `parse_markdown`. -/
def splitBlocks : List Str → (List Str × List Str)
  | [] => ([], [])
  | [t] => ([t], [])
  | t :: c :: rest =>
    let r := splitBlocks rest
    (t :: r.1, c :: r.2)

/-- Process each code block in document order, threading the shared
evaluation context and calculation count through the calculation builder. -/
def processCodeBlocks (parseLine : Str → Except Str Expression) (p : LibraryProvider) :
    List Str → EvaluationContext → Nat →
    Option (List (Except Str (Option Nat)) × EvaluationContext × Nat)
  | [], ctx, n => some ([], ctx, n)
  | b :: bs, ctx, n =>
    match handle_code_block parseLine p b ctx n with
    | Option.none => Option.none
    | some (ctx1, n1, r) =>
      match processCodeBlocks parseLine p bs ctx1 n1 with
      | Option.none => Option.none
      | some (rs, ctx2, n2) => some (r :: rs, ctx2, n2)

/-- Turn each block result into its output text: a visible calculation is
taken from the rendered list (`none` models the indexing panic), an invisible
one becomes empty, an error keeps its marker. -/
def spliceCode (code : List Str) : List (Except Str (Option Nat)) → Option (List Str)
  | [] => some []
  | .ok (some i) :: rest =>
    match code.get? i with
    | Option.none => Option.none
    | some s => (spliceCode code rest).map (fun rs => s :: rs)
  | .ok Option.none :: rest => (spliceCode code rest).map (fun rs => [] :: rs)
  | .error s :: rest => (spliceCode code rest).map (fun rs => s :: rs)

/-- The final interleaving loop of `parse_markdown`: each text block followed
by the next code output, if any. -/
def interleave : List Str → List Str → Str
  | [], _ => []
  | t :: ts, [] => t ++ interleave ts []
  | t :: ts, c :: cs => t ++ c ++ interleave ts cs

/-- `parse_markdown` from src/markdown.rs.  `render` stands for
`format_calculations` on the finished calculation list (rendering and unit
resolution only feed this external capability), parametrised by the final
number of calculations. -/
def parse_markdown (render : Nat → List Str) (parseLine : Str → Except Str Expression)
    (p : LibraryProvider) (source : Str) (ctx : EvaluationContext) : Option Str :=
  match processCodeBlocks parseLine p (splitBlocks (get_blocks source)).2 ctx 0 with
  | Option.none => Option.none
  | some (results, _, n) =>
    match spliceCode (render n) results with
    | Option.none => Option.none
    | some codeStrs => some (interleave (splitBlocks (get_blocks source)).1 codeStrs)

mutual

/-- Whether an expression contains a `VariableAssign` node, the only
constructor whose evaluation writes to the context. -/
def Expression.hasVariableAssign : Expression → Bool
  | .VariableAssign _ _ => true
  | .Operator _ left right => left.hasVariableAssign || right.hasVariableAssign
  | .FunctionCall _ args => Expression.listHasVariableAssign args
  | .DefinedUnit _ child => child.hasVariableAssign
  | .LiteralUnit _ child => child.hasVariableAssign
  | .VariableRef _ => false
  | .NumberLiteral _ => false
  | .Negate child => child.hasVariableAssign

/-- `hasVariableAssign` over an argument list. -/
def Expression.listHasVariableAssign : List Expression → Bool
  | [] => false
  | e :: es => e.hasVariableAssign || Expression.listHasVariableAssign es

end

/-- The collection holding `(+, m, s) -> ms`, with display labels for all
three unit names. -/
def c7Collection : UnitCollection where
  defined_units := [("m".data, "m".data), ("s".data, "s".data), ("ms".data, "ms".data)]
  operator_results := [(("+".data, "m".data, "s".data), "ms".data)]

/-- A fresh resolution state over `c7Collection`. -/
def c7State : ResolveState where
  collection := c7Collection
  missing := []
  prompts := []

/-- No leading whitespace (vacuous for the empty string). -/
def headOkB (s : Str) : Bool :=
  match s.head? with
  | some c => !c.isWhitespace
  | Option.none => true

/-- No trailing whitespace (vacuous for the empty string). -/
def lastOkB (s : Str) : Bool :=
  match s.getLast? with
  | some c => !c.isWhitespace
  | Option.none => true

/-- A field that survives the text round trip: no separator, no newline, and
no leading or trailing whitespace (the parser trims every line). -/
def fieldSafe (s : Str) : Prop :=
  ';' ∉ s ∧ '\n' ∉ s ∧ headOkB s = true ∧ lastOkB s = true

/-- The round-trip claim's own precondition: no semicolon and no newline in
any stored name, label, operator symbol or result name. -/
def UnitCollection.claimSafe (c : UnitCollection) : Prop :=
  (∀ kv ∈ c.defined_units, (';' ∉ kv.1 ∧ '\n' ∉ kv.1) ∧ (';' ∉ kv.2 ∧ '\n' ∉ kv.2)) ∧
  (∀ kv ∈ c.operator_results,
    (';' ∉ kv.1.1 ∧ '\n' ∉ kv.1.1) ∧ (';' ∉ kv.1.2.1 ∧ '\n' ∉ kv.1.2.1) ∧
    (';' ∉ kv.1.2.2 ∧ '\n' ∉ kv.1.2.2) ∧ (';' ∉ kv.2 ∧ '\n' ∉ kv.2))

/-- The strengthened precondition under which the round trip does hold:
every field is safe, and the defined-unit section is nonempty whenever the
operator section is. -/
def UnitCollection.roundTripSafe (c : UnitCollection) : Prop :=
  (∀ kv ∈ c.defined_units, fieldSafe kv.1 ∧ fieldSafe kv.2) ∧
  (∀ kv ∈ c.operator_results,
    fieldSafe kv.1.1 ∧ fieldSafe kv.1.2.1 ∧ fieldSafe kv.1.2.2 ∧ fieldSafe kv.2) ∧
  (c.defined_units ≠ [] ∨ c.operator_results = [])

instance (s : Str) : Decidable (fieldSafe s) := by
  unfold fieldSafe
  infer_instance

instance (c : UnitCollection) : Decidable c.claimSafe := by
  unfold UnitCollection.claimSafe
  infer_instance

instance (c : UnitCollection) : Decidable c.roundTripSafe := by
  unfold UnitCollection.roundTripSafe
  infer_instance

/-- A tokenizer-error message, as the `exp` helper would produce. -/
def c9TokErr : Str := "tokenizer error: Expected expression".data

/-- A per-line pipeline that fails on every line. -/
def c9BadLine : Str → Except Str Expression := fun _ => .error c9TokErr

/-- A per-line pipeline for the two concrete formula lines `1 + 1` and
`x * 2` (the outcome `exp` would produce for them). -/
def c9ParseLine : Str → Except Str Expression := fun l =>
  if l = ("1 + 1".data) then
    .ok (.Operator ("+".data) (.NumberLiteral 1) (.NumberLiteral 1))
  else if l = ("x * 2".data) then
    .ok (.Operator ("*".data) (.VariableRef ("x".data)) (.NumberLiteral 2))
  else
    .error c9TokErr

/-- A collection with an empty defined-unit section but a nonempty operator
section, whose fields satisfy the round-trip claim's precondition. -/
def c8Bad : UnitCollection where
  defined_units := []
  operator_results := [(("+".data, "m".data, "s".data), "ms".data)]

/-- A collection whose text form does round-trip. -/
def c8Good : UnitCollection where
  defined_units := [("m".data, "meters".data)]
  operator_results := [(("*".data, "m".data, "m".data), "m2".data)]

/-- C1: with `+` registered at precedence 0 and `*` at precedence 1,
compiling the operator run with operands `[2, 3, 4]` and operators `[+, *]`
produces `Operator(+, 2, Operator(*, 3, 4))`, which evaluates to 14
(and 14 is not 20). -/
theorem C1_precedence_add_before_mul :
    transform_operators latexLib ["+".data, "*".data]
        [.NumberLiteral 2, .NumberLiteral 3, .NumberLiteral 4] =
      some (.Operator ("+".data) (.NumberLiteral 2)
        (.Operator ("*".data) (.NumberLiteral 3) (.NumberLiteral 4))) ∧
    Expression.eval latexLib
        (.Operator ("+".data) (.NumberLiteral 2)
          (.Operator ("*".data) (.NumberLiteral 3) (.NumberLiteral 4))) [] =
      some ([], .ok (14, .none)) ∧
    (14 : Rat) ≠ 20 := by
  refine ⟨rfl, ?_, by norm_num⟩
  simp [Expression.eval, latexLib, LibraryProvider.findOp, Add, Sub, Mul, List.find?]
  norm_num

/-- C2 counterexample: both operators are `-` (equal precedence 0), so the
left subtree's operator has lower-or-equal precedence, yet the transform
performs no rotation: it keeps the left-grouped node, which differs from the
rotated tree the claim prescribes. -/
theorem C2_equal_precedence_counterexample :
    (TransformNode.Op (.Op (.Expr (.NumberLiteral 10)) (.Expr (.NumberLiteral 3)) ("-".data))
        (.Expr (.NumberLiteral 2)) ("-".data)).transform latexLib =
      some (.Op (.Op (.Expr (.NumberLiteral 10)) (.Expr (.NumberLiteral 3)) ("-".data))
        (.Expr (.NumberLiteral 2)) ("-".data)) ∧
    (TransformNode.Op (.Op (.Expr (.NumberLiteral 10)) (.Expr (.NumberLiteral 3)) ("-".data))
        (.Expr (.NumberLiteral 2)) ("-".data)).transform latexLib ≠
      some (.Op (.Expr (.NumberLiteral 10))
        (.Op (.Expr (.NumberLiteral 3)) (.Expr (.NumberLiteral 2)) ("-".data)) ("-".data)) := by
  have h : (TransformNode.Op (.Op (.Expr (.NumberLiteral 10)) (.Expr (.NumberLiteral 3)) ("-".data))
        (.Expr (.NumberLiteral 2)) ("-".data)).transform latexLib =
      some (.Op (.Op (.Expr (.NumberLiteral 10)) (.Expr (.NumberLiteral 3)) ("-".data))
        (.Expr (.NumberLiteral 2)) ("-".data)) := rfl
  refine ⟨h, ?_⟩
  rw [h]
  simp

/-- C2 (amended): after the left subtree of a binary node has been resolved,
a rotation is performed exactly when that resolved left subtree is itself a
binary operator node whose operator has STRICTLY lower precedence than the
current node's operator; the rotation itself is as the claim describes.  At
equal precedence the node is kept left-grouped. -/
theorem C2_rotation_iff_strictly_lower_precedence (p : LibraryProvider)
    (l r : TransformNode) (op : Str) (ll lr : TransformNode) (lop : Str)
    (po plo : Nat)
    (hl : l.transform p = some (.Op ll lr lop))
    (hop : p.operator_precedence op = some po)
    (hlop : p.operator_precedence lop = some plo) :
    (TransformNode.Op l r op).transform p =
      some (if plo < po then .Op ll (.Op lr r op) lop
            else .Op (.Op ll lr lop) r op) := by
  rw [TransformNode.transform]
  simp only [hl, hop, hlop, gt_iff_lt]
  split <;> rfl

/-- Witness for the amended C2: the chain `(2 + 3) * 4` rotates because
`+` (precedence 0) is strictly lower than `*` (precedence 1). -/
theorem C2_rotation_witness :
    (0 : Nat) < 1 ∧
    (TransformNode.Op (.Op (.Expr (.NumberLiteral 2)) (.Expr (.NumberLiteral 3)) ("+".data))
        (.Expr (.NumberLiteral 4)) ("*".data)).transform latexLib =
      some (if 0 < 1 then
              TransformNode.Op (.Expr (.NumberLiteral 2))
                (.Op (.Expr (.NumberLiteral 3)) (.Expr (.NumberLiteral 4)) ("*".data)) ("+".data)
            else
              TransformNode.Op (.Op (.Expr (.NumberLiteral 2)) (.Expr (.NumberLiteral 3)) ("+".data))
                (.Expr (.NumberLiteral 4)) ("*".data)) :=
  ⟨by norm_num,
   C2_rotation_iff_strictly_lower_precedence latexLib _ _ _ _ _ _ 1 0 (by rfl) (by rfl) (by rfl)⟩

/-- C3: operators of equal precedence group left-to-right, with `-` at
precedence 0 both in its real (non-associative) registration and in a variant
registration with the associativity flag raised: `[10, 3, 2]` with `[-, -]`
compiles to `Operator(-, Operator(-, 10, 3), 2)`, which evaluates to 5, while
the right-grouped tree (a different tree) evaluates to 9. -/
theorem C3_equal_precedence_groups_left :
    transform_operators latexLib ["-".data, "-".data]
        [.NumberLiteral 10, .NumberLiteral 3, .NumberLiteral 2] =
      some (.Operator ("-".data)
        (.Operator ("-".data) (.NumberLiteral 10) (.NumberLiteral 3)) (.NumberLiteral 2)) ∧
    transform_operators subAssocLib ["-".data, "-".data]
        [.NumberLiteral 10, .NumberLiteral 3, .NumberLiteral 2] =
      some (.Operator ("-".data)
        (.Operator ("-".data) (.NumberLiteral 10) (.NumberLiteral 3)) (.NumberLiteral 2)) ∧
    Expression.eval latexLib
        (.Operator ("-".data)
          (.Operator ("-".data) (.NumberLiteral 10) (.NumberLiteral 3)) (.NumberLiteral 2)) [] =
      some ([], .ok (5, .none)) ∧
    Expression.eval latexLib
        (.Operator ("-".data) (.NumberLiteral 10)
          (.Operator ("-".data) (.NumberLiteral 3) (.NumberLiteral 2))) [] =
      some ([], .ok (9, .none)) ∧
    Expression.Operator ("-".data)
        (.Operator ("-".data) (.NumberLiteral 10) (.NumberLiteral 3)) (.NumberLiteral 2) ≠
      Expression.Operator ("-".data) (.NumberLiteral 10)
        (.Operator ("-".data) (.NumberLiteral 3) (.NumberLiteral 2)) := by
  refine ⟨rfl, rfl, ?_, ?_, by simp⟩ <;>
  · simp [Expression.eval, latexLib, LibraryProvider.findOp, Add, Sub, Mul, List.find?]
    norm_num

/-- C4: every successful evaluation of a binary operator node attaches the
unit prescribed by the 9-entry combination table over the operand units
(with the associativity flag snapshotted from the operator). -/
theorem C4_operator_unit_combination_table (p : LibraryProvider) (operator : Str)
    (left right : Expression) (ctx ctx1 ctx2 : EvaluationContext)
    (l_v r_v res_v : Rat) (l_u r_u : Unit) (spec : OpSpec)
    (hl : Expression.eval p left ctx = some (ctx1, .ok (l_v, l_u)))
    (hr : Expression.eval p right ctx1 = some (ctx2, .ok (r_v, r_u)))
    (hop : p.findOp operator = some spec)
    (hev : spec.eval l_v r_v = .ok res_v) :
    Expression.eval p (.Operator operator left right) ctx =
      some (ctx2, .ok (res_v, unitCombinationTable operator spec.associative l_u r_u)) := by
  rw [Expression.eval]
  simp only [hl, hr, hop, hev]
  cases l_u <;> cases r_u <;> rfl

/-- Witness for C4: `5 m + 3 "kg"` — a Defined left unit wins over the right
literal, giving value 8 with unit `Defined(m)` by the table. -/
theorem C4_unit_table_witness :
    Expression.eval latexLib (.DefinedUnit (some ("m".data)) (.NumberLiteral 5)) [] =
      some ([], .ok (5, .Defined (.Defined ("m".data)))) ∧
    Expression.eval latexLib (.LiteralUnit ("kg".data) (.NumberLiteral 3)) [] =
      some ([], .ok (3, .Literal ("kg".data))) ∧
    latexLib.findOp ("+".data) = some Add ∧
    Add.eval 5 3 = .ok 8 ∧
    Expression.eval latexLib
        (.Operator ("+".data) (.DefinedUnit (some ("m".data)) (.NumberLiteral 5))
          (.LiteralUnit ("kg".data) (.NumberLiteral 3))) [] =
      some ([], .ok (8, unitCombinationTable ("+".data) Add.associative
        (.Defined (.Defined ("m".data))) (.Literal ("kg".data)))) := by
  have h1 : Expression.eval latexLib (.DefinedUnit (some ("m".data)) (.NumberLiteral 5)) [] =
      some ([], .ok (5, .Defined (.Defined ("m".data)))) := by
    simp [Expression.eval]
  have h2 : Expression.eval latexLib (.LiteralUnit ("kg".data) (.NumberLiteral 3)) [] =
      some ([], .ok (3, .Literal ("kg".data))) := by
    simp [Expression.eval]
  have h3 : latexLib.findOp ("+".data) = some Add := rfl
  have h4 : Add.eval 5 3 = .ok 8 := by
    simp only [Add]
    norm_num
  exact ⟨h1, h2, h3, h4,
    C4_operator_unit_combination_table latexLib _ _ _ _ _ _ _ _ _ _ _ _ h1 h2 h3 h4⟩

/-- C5 (the code, against the claim): `Expression::new` never consults
`operator_exists` — a two-operand run over the unregistered symbol `?`
compiles successfully to an `Operator` node, and a three-operand run panics
inside `operator_precedence` instead of returning an `ExpressionError`. -/
theorem C5_unknown_operator_accepted :
    latexLib.operator_exists ("?".data) = false ∧
    Expression.new latexLib (.OperatorSequence [("?".data)]
        [.NumberLiteral ("1".data), .NumberLiteral ("2".data)]) =
      some (.ok (.Operator ("?".data) (.NumberLiteral 1) (.NumberLiteral 2))) ∧
    Expression.new latexLib (.OperatorSequence [("?".data), ("?".data)]
        [.NumberLiteral ("1".data), .NumberLiteral ("2".data), .NumberLiteral ("3".data)]) =
      Option.none := by
  refine ⟨rfl, ?_, ?_⟩ <;>
    simp [Expression.new, Expression.newList, transform_operators, buildChain,
      TransformNode.transform, TransformNode.compile, parseNumber, digitsToNat,
      latexLib, LibraryProvider.operator_precedence, LibraryProvider.findOp,
      Add, Sub, Mul, Div, DivSymbol, Pow, List.find?]

/-- C6 (the code, against the claim): expanding the single-calculation
template `$$$0=$1$$` panics (the `$$` escape parses the empty placeholder
index), while a template ending inside a placeholder, like `$0 + $1`,
expands normally. -/
theorem C6_template_dollar_escape_panics :
    fmt_expression ("$$$0=$1$$".data) [("E".data), ("R".data)] = Option.none ∧
    fmt_expression ("$0 + $1".data) [("E".data), ("R".data)] = some (("E + R").data) := by
  exact ⟨rfl, rfl⟩

/-- C7: `get_operator_result` returns the stored result for the direct key
when present; when absent it falls back to the operand-swapped key exactly
for associative operators; it is `None` iff both applicable lookups fail.
Consequently `resolve_unit` on `Implicit{+, assoc, s, m}` over a collection
holding `(+, m, s) -> ms` (with all labels present) returns `ms` with the
state untouched — in particular without issuing any prompt. -/
theorem C7_associative_operator_lookup :
    (∀ (c : UnitCollection) (operator a b : Str) (associative : Bool) (r : Str),
      c.storedResult operator a b = some r →
        c.get_operator_result operator a b associative = some r) ∧
    (∀ (c : UnitCollection) (operator a b : Str),
      c.storedResult operator a b = Option.none →
        c.get_operator_result operator a b true = c.storedResult operator b a) ∧
    (∀ (c : UnitCollection) (operator a b : Str) (associative : Bool),
      c.get_operator_result operator a b associative = Option.none ↔
        (c.storedResult operator a b = Option.none ∧
          (associative = true → c.storedResult operator b a = Option.none))) ∧
    (∀ prompt : Str → Str,
      resolve_unit prompt
          (.Implicit ("+".data) true (.Defined ("s".data)) (.Defined ("m".data))) c7State =
        ("ms".data, c7State)) ∧
    c7State.prompts = [] := by
  refine ⟨?_, ?_, ?_, ?_, rfl⟩
  · intro c operator a b associative r h
    simp [UnitCollection.get_operator_result, h]
  · intro c operator a b h
    simp [UnitCollection.get_operator_result, h]
  · intro c operator a b associative
    cases h : c.storedResult operator a b with
    | some r => simp [UnitCollection.get_operator_result, h]
    | none => cases associative <;> simp [UnitCollection.get_operator_result, h]
  · intro prompt
    rfl

/-- Witness for C7: the direct key `(+, m, s)` is stored in `c7Collection`,
so the lookup (associative) returns `ms`. -/
theorem C7_lookup_witness :
    c7Collection.storedResult ("+".data) ("m".data) ("s".data) = some ("ms".data) ∧
    c7Collection.get_operator_result ("+".data) ("m".data) ("s".data) true = some ("ms".data) :=
  ⟨rfl, C7_associative_operator_lookup.1 c7Collection _ _ _ true _ rfl⟩

theorem splitOnChar_ne_nil (sep : Char) (s : Str) : splitOnChar sep s ≠ [] := by
  induction s with
  | nil => simp [splitOnChar]
  | cons c cs ih =>
    simp only [splitOnChar]
    cases h : splitOnChar sep cs with
    | nil => simp
    | cons hd tl => by_cases hc : c = sep <;> simp [hc]

theorem splitOnChar_not_mem {sep : Char} {s : Str} (h : sep ∉ s) : splitOnChar sep s = [s] := by
  induction s with
  | nil => rfl
  | cons c cs ih =>
    have hc : ¬ c = sep := by
      intro e
      exact h (e ▸ List.mem_cons_self c cs)
    have hcs : sep ∉ cs := fun m => h (List.mem_cons_of_mem _ m)
    simp [splitOnChar, ih hcs, hc]

theorem splitOnChar_append_sep {sep : Char} {a : Str} (b : Str) (h : sep ∉ a) :
    splitOnChar sep (a ++ sep :: b) = a :: splitOnChar sep b := by
  induction a with
  | nil =>
    obtain ⟨hd, tl, hht⟩ : ∃ hd tl, splitOnChar sep b = hd :: tl := by
      cases hsb : splitOnChar sep b with
      | nil => exact absurd hsb (splitOnChar_ne_nil _ _)
      | cons hd tl => exact ⟨hd, tl, rfl⟩
    simp [splitOnChar, hht]
  | cons c cs ih =>
    have hc : ¬ c = sep := by
      intro e
      exact h (e ▸ List.mem_cons_self c cs)
    have hcs : sep ∉ cs := fun m => h (List.mem_cons_of_mem _ m)
    simp only [List.cons_append, splitOnChar, List.append_eq]
    rw [ih hcs]
    simp [hc]

theorem splitOnChar_intercalate_append (sep : Char) (rest : Str) :
    ∀ (ls : List Str), ls ≠ [] → (∀ l ∈ ls, sep ∉ l) →
      splitOnChar sep (intercalateChar sep ls ++ sep :: rest) = ls ++ splitOnChar sep rest
  | [], h, _ => absurd rfl h
  | [x], _, hmem => by
    simp only [intercalateChar]
    rw [splitOnChar_append_sep rest (hmem x (by simp))]
    rfl
  | x :: y :: tl, _, hmem => by
    simp only [intercalateChar]
    rw [List.append_assoc, List.cons_append]
    rw [splitOnChar_append_sep _ (hmem x (by simp))]
    rw [splitOnChar_intercalate_append sep rest (y :: tl) (by simp)
      (fun l hl => hmem l (List.mem_cons_of_mem _ hl))]
    rfl

theorem splitOnChar_intercalate (sep : Char) :
    ∀ (ls : List Str), ls ≠ [] → (∀ l ∈ ls, sep ∉ l) →
      splitOnChar sep (intercalateChar sep ls) = ls
  | [], h, _ => absurd rfl h
  | [x], _, hmem => by
    simp only [intercalateChar]
    exact splitOnChar_not_mem (hmem x (by simp))
  | x :: y :: tl, _, hmem => by
    simp only [intercalateChar]
    rw [splitOnChar_append_sep _ (hmem x (by simp))]
    rw [splitOnChar_intercalate sep (y :: tl) (by simp)
      (fun l hl => hmem l (List.mem_cons_of_mem _ hl))]

theorem dropWhile_of_headOkB {s : Str} (h : headOkB s = true) :
    s.dropWhile Char.isWhitespace = s := by
  cases s with
  | nil => rfl
  | cons c cs =>
    simp only [headOkB, List.head?_cons, Bool.not_eq_true'] at h
    simp [List.dropWhile, h]

theorem trimChars_of_ok {s : Str} (h1 : headOkB s = true) (h2 : lastOkB s = true) :
    trimChars s = s := by
  have hr : headOkB s.reverse = true := by
    unfold headOkB
    rw [List.head?_reverse]
    exact h2
  unfold trimChars
  rw [dropWhile_of_headOkB h1, dropWhile_of_headOkB hr, List.reverse_reverse]

theorem headOkB_append_cons {a b : Str} {c : Char} (hc : c.isWhitespace = false)
    (h : headOkB a = true) : headOkB (a ++ c :: b) = true := by
  cases a with
  | nil => simp [headOkB, hc]
  | cons x xs =>
    simp only [headOkB, List.head?_cons] at h ⊢
    simpa using h

theorem lastOkB_append_cons {a b : Str} {c : Char} (hc : c.isWhitespace = false)
    (h : lastOkB b = true) : lastOkB (a ++ c :: b) = true := by
  have hsplit : a ++ c :: b = (a ++ [c]) ++ b := by simp
  unfold lastOkB at h ⊢
  rw [hsplit, List.getLast?_append, List.getLast?_concat]
  cases hb : b.getLast? with
  | none => simp [hc]
  | some d =>
    rw [hb] at h
    simpa using h

theorem definedLine_trim {a b : Str} (ha : fieldSafe a) (hb : fieldSafe b) :
    trimChars (a ++ ';' :: b) = a ++ ';' :: b := by
  exact trimChars_of_ok
    (headOkB_append_cons (by decide) ha.2.2.1)
    (lastOkB_append_cons (by decide) hb.2.2.2)

theorem definedLine_split {a b : Str} (ha : fieldSafe a) (hb : fieldSafe b) :
    splitOnChar ';' (a ++ ';' :: b) = [a, b] := by
  rw [splitOnChar_append_sep b ha.1, splitOnChar_not_mem hb.1]

theorem opLine_trim {a op b r : Str} (ha : fieldSafe a) (_hop : fieldSafe op)
    (_hb : fieldSafe b) (hr : fieldSafe r) :
    trimChars (a ++ ';' :: (op ++ ';' :: (b ++ ';' :: r))) =
      a ++ ';' :: (op ++ ';' :: (b ++ ';' :: r)) := by
  exact trimChars_of_ok
    (headOkB_append_cons (by decide) ha.2.2.1)
    (lastOkB_append_cons (by decide)
      (lastOkB_append_cons (by decide)
        (lastOkB_append_cons (by decide) hr.2.2.2)))

theorem opLine_split {a op b r : Str} (ha : fieldSafe a) (hop : fieldSafe op)
    (hb : fieldSafe b) (hr : fieldSafe r) :
    splitOnChar ';' (a ++ ';' :: (op ++ ';' :: (b ++ ';' :: r))) = [a, op, b, r] := by
  rw [splitOnChar_append_sep _ ha.1, splitOnChar_append_sep _ hop.1,
    splitOnChar_append_sep _ hb.1, splitOnChar_not_mem hr.1]

theorem definedLine_no_newline {a b : Str} (ha : fieldSafe a) (hb : fieldSafe b) :
    '\n' ∉ a ++ ';' :: b := by
  intro hmem
  rcases List.mem_append.1 hmem with h | h
  · exact ha.2.1 h
  · rcases List.mem_cons.1 h with h | h
    · exact absurd h (by decide)
    · exact hb.2.1 h

theorem opLine_no_newline {a op b r : Str} (ha : fieldSafe a) (hop : fieldSafe op)
    (hb : fieldSafe b) (hr : fieldSafe r) :
    '\n' ∉ a ++ ';' :: (op ++ ';' :: (b ++ ';' :: r)) := by
  intro hmem
  rcases List.mem_append.1 hmem with h | h
  · exact ha.2.1 h
  · rcases List.mem_cons.1 h with h | h
    · exact absurd h (by decide)
    · rcases List.mem_append.1 h with h | h
      · exact hop.2.1 h
      · rcases List.mem_cons.1 h with h | h
        · exact absurd h (by decide)
        · rcases List.mem_append.1 h with h | h
          · exact hb.2.1 h
          · rcases List.mem_cons.1 h with h | h
            · exact absurd h (by decide)
            · exact hr.2.1 h

theorem rustLines_eq (s : Str) (h : s ≠ []) :
    rustLines s =
      if (splitOnChar '\n' s).getLast? = some [] then (splitOnChar '\n' s).dropLast
      else splitOnChar '\n' s := by
  cases s with
  | nil => exact absurd rfl h
  | cons c cs => rfl

theorem operatorLine_ne_nil (kv : (Str × Str × Str) × Str) : operatorLine kv ≠ [] := by
  unfold operatorLine
  cases h : kv.1.2.1 <;> simp

theorem parseDefinedLines_run :
    ∀ (entries : List (Str × Str)) (acc : List (Str × Str)) (rest : List Str),
      (∀ kv ∈ entries, fieldSafe kv.1 ∧ fieldSafe kv.2) →
      parseDefinedLines (entries.map definedLine ++ [] :: rest) acc =
        .ok (acc ++ entries, rest)
  | [], acc, rest, _ => by
    simp [parseDefinedLines, trimChars]
  | (a, b) :: es, acc, rest, hsafe => by
    obtain ⟨ha, hb⟩ := hsafe (a, b) (List.mem_cons_self _ _)
    have hrec := parseDefinedLines_run es (acc ++ [(a, b)]) rest
      (fun kv hkv => hsafe kv (List.mem_cons_of_mem _ hkv))
    simp only [List.map_cons, List.cons_append, parseDefinedLines]
    rw [show definedLine (a, b) = a ++ ';' :: b from rfl]
    rw [definedLine_trim ha hb]
    rw [if_neg (by simp)]
    rw [definedLine_split ha hb]
    simpa using hrec

theorem parseOperatorLines_run :
    ∀ (entries : List ((Str × Str × Str) × Str)) (acc : List ((Str × Str × Str) × Str)),
      (∀ kv ∈ entries, fieldSafe kv.1.1 ∧ fieldSafe kv.1.2.1 ∧ fieldSafe kv.1.2.2 ∧ fieldSafe kv.2) →
      parseOperatorLines (entries.map operatorLine) acc = .ok (acc ++ entries)
  | [], acc, _ => by
    simp [parseOperatorLines]
  | ((op, a, b), r) :: es, acc, hsafe => by
    obtain ⟨hop, ha, hb, hr⟩ := hsafe ((op, a, b), r) (List.mem_cons_self _ _)
    have hrec := parseOperatorLines_run es (acc ++ [((op, a, b), r)])
      (fun kv hkv => hsafe kv (List.mem_cons_of_mem _ hkv))
    simp only [List.map_cons, parseOperatorLines]
    rw [show operatorLine ((op, a, b), r) = a ++ ';' :: (op ++ ';' :: (b ++ ';' :: r)) from rfl]
    rw [opLine_trim ha hop hb hr]
    rw [if_neg (by simp)]
    rw [opLine_split ha hop hb hr]
    simpa using hrec

/-- C8 counterexample: a collection with no defined units but one operator
result satisfies the claim's no-semicolon/no-newline precondition, yet its
text form parses back to the EMPTY collection (the blank separator line ends
both parsing phases at once), losing the stored `(+, m, s) -> ms` entry. -/
theorem C8_empty_defined_section_counterexample :
    c8Bad.claimSafe ∧
    UnitCollection.fromText c8Bad.toText = .ok ⟨[], []⟩ ∧
    c8Bad.storedResult ("+".data) ("m".data) ("s".data) = some ("ms".data) ∧
    UnitCollection.storedResult ⟨[], []⟩ ("+".data) ("m".data) ("s".data) = Option.none := by
  refine ⟨by decide, rfl, rfl, rfl⟩

/-- C8 (amended): re-parsing the text form reproduces the collection exactly,
provided no field contains `;` or a newline, no field starts or ends with
whitespace, and the defined-unit section is nonempty whenever the operator
section is. -/
theorem C8_roundtrip_amended (c : UnitCollection) (h : c.roundTripSafe) :
    UnitCollection.fromText c.toText = .ok c := by
  obtain ⟨du, ops⟩ := c
  obtain ⟨hdu, hops, hne⟩ := h
  dsimp only at hdu hops hne
  have hdl_nl : ∀ l ∈ du.map definedLine, '\n' ∉ l := by
    intro l hl
    obtain ⟨kv, hkv, rfl⟩ := List.mem_map.1 hl
    exact definedLine_no_newline (hdu kv hkv).1 (hdu kv hkv).2
  have hol_nl : ∀ l ∈ ops.map operatorLine, '\n' ∉ l := by
    intro l hl
    obtain ⟨kv, hkv, rfl⟩ := List.mem_map.1 hl
    obtain ⟨h1, h2, h3, h4⟩ := hops kv hkv
    exact opLine_no_newline h2 h1 h3 h4
  by_cases hops0 : ops = []
  · subst hops0
    cases du with
    | nil => rfl
    | cons d0 dtl =>
      have hmapne : (d0 :: dtl).map definedLine ≠ [] := by simp
      have hsplit : splitOnChar '\n' (UnitCollection.toText ⟨d0 :: dtl, []⟩) =
          ((d0 :: dtl).map definedLine) ++ [[], []] := by
        show splitOnChar '\n'
            (intercalateChar '\n' ((d0 :: dtl).map definedLine) ++ '\n' :: ['\n']) = _
        rw [splitOnChar_intercalate_append '\n' ['\n'] _ hmapne hdl_nl]
        rfl
      have htne : UnitCollection.toText ⟨d0 :: dtl, []⟩ ≠ [] := by
        intro he
        have h2 := congrArg (splitOnChar '\n') he
        rw [hsplit] at h2
        simp [splitOnChar] at h2
      have hshape : ((d0 :: dtl).map definedLine) ++ [[], []] =
          (((d0 :: dtl).map definedLine) ++ [([] : Str)]) ++ [([] : Str)] := by
        simp
      have hgl : (((d0 :: dtl).map definedLine) ++ [[], []]).getLast? = some ([] : Str) := by
        rw [hshape]
        exact List.getLast?_concat _
      have hdrop : (((d0 :: dtl).map definedLine) ++ [[], []]).dropLast =
          ((d0 :: dtl).map definedLine) ++ [([] : Str)] := by
        rw [hshape]
        exact List.dropLast_concat
      rw [UnitCollection.fromText, rustLines_eq _ htne, hsplit, if_pos hgl, hdrop]
      rw [parseDefinedLines_run _ [] [] hdu]
      rfl
  · have hdu_ne : du ≠ [] := by
      rcases hne with h | h
      · exact h
      · exact absurd h hops0
    have hmapne : du.map definedLine ≠ [] := by simpa using hdu_ne
    have homapne : ops.map operatorLine ≠ [] := by simpa using hops0
    have hsplit : splitOnChar '\n' (UnitCollection.toText ⟨du, ops⟩) =
        (du.map definedLine) ++ [] :: (ops.map operatorLine) := by
      show splitOnChar '\n'
          (intercalateChar '\n' (du.map definedLine) ++
            '\n' :: ('\n' :: intercalateChar '\n' (ops.map operatorLine))) = _
      rw [splitOnChar_intercalate_append '\n' _ _ hmapne hdl_nl]
      congr 1
      rw [show ('\n' :: intercalateChar '\n' (ops.map operatorLine)) =
          ([] : Str) ++ '\n' :: intercalateChar '\n' (ops.map operatorLine) from rfl]
      rw [splitOnChar_append_sep _ (by simp)]
      rw [splitOnChar_intercalate '\n' _ homapne hol_nl]
    have htne : UnitCollection.toText ⟨du, ops⟩ ≠ [] := by
      intro he
      have h2 := congrArg (splitOnChar '\n') he
      rw [hsplit] at h2
      have h3 := congrArg List.length h2
      simp [List.length_append, splitOnChar] at h3
      exact hdu_ne (List.length_eq_zero.1 (by omega))
    have holne : ∀ l ∈ ops.map operatorLine, l ≠ [] := by
      intro l hl
      obtain ⟨kv, hkv, rfl⟩ := List.mem_map.1 hl
      exact operatorLine_ne_nil kv
    have hlast : ((du.map definedLine) ++ [] :: (ops.map operatorLine)).getLast? ≠
        some ([] : Str) := by
      rw [List.getLast?_append]
      rw [show (([] : Str) :: ops.map operatorLine) = [([] : Str)] ++ ops.map operatorLine from rfl]
      rw [List.getLast?_append]
      cases holast : (ops.map operatorLine).getLast? with
      | none =>
        exfalso
        rw [List.getLast?_eq_none_iff] at holast
        exact homapne holast
      | some lastL =>
        have hmem := List.mem_of_getLast?_eq_some holast
        have hne2 : lastL ≠ [] := holne lastL hmem
        simp [Option.or, hne2]
    rw [UnitCollection.fromText, rustLines_eq _ htne, hsplit, if_neg hlast]
    rw [parseDefinedLines_run _ [] _ hdu]
    dsimp only
    rw [parseOperatorLines_run _ [] hops]
    rfl

/-- Witness for the amended C8: a one-entry/one-entry collection round-trips. -/
theorem C8_roundtrip_witness :
    c8Good.roundTripSafe ∧ UnitCollection.fromText c8Good.toText = .ok c8Good :=
  ⟨by decide, C8_roundtrip_amended c8Good (by decide)⟩

theorem collectLines_first_error (parseLine : Str → Except Str Expression)
    (post : List Str) (lk : Str) (e : Str)
    (hlk : trimChars lk ≠ []) (herr : parseLine lk = .error e) :
    ∀ (pre : List Str) (i : Nat) (acc : List Expression),
      (∀ l ∈ pre, trimChars l = [] ∨ ∃ ex, parseLine l = .ok ex) →
      ∃ acc2, collectLines parseLine (pre ++ lk :: post) i acc = (acc2, some (i + pre.length, e))
  | [], i, acc, _ => by
    refine ⟨acc, ?_⟩
    simp [collectLines, hlk, herr]
  | l :: pre2, i, acc, hpre => by
    by_cases hb : trimChars l = []
    · obtain ⟨acc2, hacc⟩ := collectLines_first_error parseLine post lk e hlk herr pre2 (i + 1) acc
        (fun x hx => hpre x (List.mem_cons_of_mem _ hx))
      refine ⟨acc2, ?_⟩
      simp only [List.cons_append, collectLines, List.append_eq]
      rw [if_pos hb, hacc]
      have harith : i + 1 + pre2.length = i + (l :: pre2).length := by
        simp [List.length_cons]
        omega
      rw [harith]
    · rcases hpre l (List.mem_cons_self _ _) with hbl | ⟨ex, hok⟩
      · exact absurd hbl hb
      · obtain ⟨acc2, hacc⟩ := collectLines_first_error parseLine post lk e hlk herr pre2 (i + 1)
          (acc ++ [ex]) (fun x hx => hpre x (List.mem_cons_of_mem _ hx))
        refine ⟨acc2, ?_⟩
        simp only [List.cons_append, collectLines, List.append_eq]
        rw [if_neg hb]
        simp only [hok]
        rw [hacc]
        have harith : i + 1 + pre2.length = i + (l :: pre2).length := by
          simp [List.length_cons]
          omega
        rw [harith]

/-- C9 counterexample: a three-line block whose last line `x * 2` fails
EVALUATION (missing variable `x`) is replaced by an inline error marker, but
the marker carries no line index at all (it contains no digit), although the
block has more than one line. -/
theorem C9_eval_error_no_line_index_counterexample :
    handle_code_block c9ParseLine latexLib (" \n1 + 1\nx * 2".data) [] 0 =
      some ([], 0, .error (format_err
        (("Variable '".data) ++ ("x".data) ++ ("' not found".data)))) ∧
    1 < (rustLines ((" \n1 + 1\nx * 2".data).drop 0)).length ∧
    (format_err (("Variable '".data) ++ ("x".data) ++ ("' not found".data))).filter
      (fun c => c.isDigit) = [] := by
  refine ⟨?_, by decide, by decide⟩
  have h1 : Expression.eval latexLib
      (.Operator ("+".data) (.NumberLiteral 1) (.NumberLiteral 1)) [] =
      some ([], .ok (2, .none)) := by
    simp [Expression.eval, latexLib, LibraryProvider.findOp, Add, Sub, Mul, List.find?]
    norm_num
  have h2 : Expression.eval latexLib
      (.Operator ("*".data) (.VariableRef ("x".data)) (.NumberLiteral 2)) [] =
      some ([], .error (.MissingVariable ("x".data))) := by
    simp [Expression.eval, EvaluationContext.get_variable]
  simp [handle_code_block, parsePreflags, parsePreflagsGo, rustLines, splitOnChar,
    collectLines, trimChars, c9ParseLine, add_multi_calculation, add_multi_evals,
    h1, h2, format_err, EvaluationError.debugFmt]

/-- C9 (amended): per-line errors are caught per block and replaced by an
inline error marker while the remaining blocks keep being processed, and for
a block with more than one line whose first failure is a tokenization or
compilation error, the marker carries the 0-based index of the first failing
line; an evaluation error's marker carries no line index.  The first conjunct
is the general statement for parse-stage failures; the second splices the
markers of two failing blocks into a five-block document. -/
theorem C9_error_markers_amended :
    (∀ (parseLine : Str → Except Str Expression) (p : LibraryProvider) (block : Str)
        (ctx : EvaluationContext) (count : Nat)
        (rv ru vis : Bool) (i : Nat) (pre : List Str) (lk : Str) (post : List Str) (e : Str),
      parsePreflags block = .ok (rv, ru, vis, i) →
      rustLines (block.drop i) = pre ++ lk :: post →
      (∀ l ∈ pre, trimChars l = [] ∨ ∃ ex, parseLine l = .ok ex) →
      trimChars lk ≠ [] →
      parseLine lk = .error e →
      1 < (pre ++ lk :: post).length →
      handle_code_block parseLine p block ctx count =
        some (ctx, count, .error (format_err
          (("Error on line ".data) ++ (Nat.repr pre.length).data ++ (": ".data) ++ e)))) ∧
    parse_markdown (fun _ => []) c9BadLine latexLib ("A^ \nzz^B^ \nqq^C".data) [] =
      some (("A".data) ++
        format_err (("Error on line ".data) ++ (Nat.repr 1).data ++ (": ".data) ++ c9TokErr) ++
        ("B".data) ++
        format_err (("Error on line ".data) ++ (Nat.repr 1).data ++ (": ".data) ++ c9TokErr) ++
        ("C".data)) := by
  constructor
  · intro parseLine p block ctx count rv ru vis i pre lk post e hpf hlines hpre hlk herr hlen
    obtain ⟨acc2, hcoll⟩ :=
      collectLines_first_error parseLine post lk e hlk herr pre 0 [] hpre
    rw [handle_code_block, hpf]
    simp only [hlines, hcoll, Nat.zero_add]
    rw [if_neg (by omega)]
  · rfl

/-- Witness for the amended C9: a two-line block whose second line fails to
parse reports "Error on line 1". -/
theorem C9_error_markers_witness :
    handle_code_block c9BadLine latexLib (" \nzz".data) [] 0 =
      some ([], 0, .error (format_err
        (("Error on line ".data) ++ (Nat.repr ([(" ".data)] : List Str).length).data ++
          (": ".data) ++ c9TokErr))) :=
  C9_error_markers_amended.1 c9BadLine latexLib (" \nzz".data) [] 0 false true true 0
    [(" ".data)] ("zz".data) [] c9TokErr rfl rfl
    (fun l hl => by
      simp only [List.mem_singleton] at hl
      subst hl
      exact Or.inl rfl)
    (by decide) rfl (by decide)

theorem eval_frame_joint (p : LibraryProvider) :
    (∀ (e : Expression) (ctx : EvaluationContext),
      e.hasVariableAssign = false →
      ∀ ctx1 r, Expression.eval p e ctx = some (ctx1, r) → ctx1 = ctx) ∧
    (∀ (es : List Expression) (ctx : EvaluationContext),
      Expression.listHasVariableAssign es = false →
      ∀ ctx1 r, Expression.evalArgs p es ctx = some (ctx1, r) → ctx1 = ctx) := by
  have H := Expression.eval.mutual_induct p
    (fun e ctx => e.hasVariableAssign = false →
      ∀ ctx1 r, Expression.eval p e ctx = some (ctx1, r) → ctx1 = ctx)
    (fun es ctx => Expression.listHasVariableAssign es = false →
      ∀ ctx1 r, Expression.evalArgs p es ctx = some (ctx1, r) → ctx1 = ctx)
  apply H <;> clear H
  all_goals intros
  all_goals simp_all [Expression.eval, Expression.evalArgs,
    Expression.hasVariableAssign, Expression.listHasVariableAssign]

/-- C10: evaluating an expression that contains no `VariableAssign` node
leaves the variable map untouched, whether the evaluation succeeds or returns
an error. -/
theorem C10_eval_no_assign_preserves_context (p : LibraryProvider) (e : Expression)
    (ctx ctx1 : EvaluationContext) (r : Except EvaluationError (Rat × Unit))
    (h : e.hasVariableAssign = false)
    (hev : Expression.eval p e ctx = some (ctx1, r)) : ctx1 = ctx :=
  (eval_frame_joint p).1 e ctx h ctx1 r hev

/-- Witness for C10: `1 / 0` fails with a division-by-zero library error and
the context (holding `x`) is returned unchanged. -/
theorem C10_frame_witness :
    (Expression.Operator ("/".data) (.NumberLiteral 1) (.NumberLiteral 0)).hasVariableAssign
      = false ∧
    Expression.eval latexLib (.Operator ("/".data) (.NumberLiteral 1) (.NumberLiteral 0))
        [(("x".data), (2, .none))] =
      some ([(("x".data), (2, .none))],
        .error (.LibraryError ("division by zero".data))) ∧
    ([(("x".data), ((2 : Rat), Unit.none))] : EvaluationContext) =
      [(("x".data), (2, .none))] := by
  have h1 : (Expression.Operator ("/".data) (.NumberLiteral 1)
      (.NumberLiteral 0)).hasVariableAssign = false := rfl
  have h2 : Expression.eval latexLib
      (.Operator ("/".data) (.NumberLiteral 1) (.NumberLiteral 0))
        [(("x".data), (2, .none))] =
      some ([(("x".data), (2, .none))],
        .error (.LibraryError ("division by zero".data))) := by
    simp [Expression.eval, latexLib, LibraryProvider.findOp, Add, Sub, Mul, Div,
      operatorDiv, List.find?]
  exact ⟨h1, h2,
    C10_eval_no_assign_preserves_context latexLib _ _ _ _ h1 h2⟩

end Markmath
